import Mathlib

/-! CRUD handlers over a persistence gateway.

A shallow embedding of `handlers/http_handler.go`: the five request handlers
`HttpCreateUser`, `HttpGetUsers`, `HttpGetUser`, `HttpUpdateUser` and
`HttpDeleteUser`, written as state-passing functions over an explicit `World`
(the database behind the gateway, the outcome of `db.ConnectDB`, and the log).

The collaborators the handlers call into are not part of the handler file and
are modelled here: `strconv.ParseUint` (Go standard library), `log.Fatal`
(prints, then exits the process with status 1), the `net/http` response
writer, and the ORM handle with its `Create`, `Find`, `First`, `Save` and
`Delete` calls over a single `users` table.
-/

set_option autoImplicit false

namespace GoCrud

/-! ## strconv.ParseUint -/

/-- The error kinds of `strconv.NumError` that `ParseUint` can report. -/
inductive NumError where
  | ErrSyntax
  | ErrRange
  | ErrBase
  | ErrBitSize
  deriving DecidableEq

/-- Largest value of a Go `uint64`. -/
def maxUint64 : Nat := 2 ^ 64 - 1

/-- Go's `lower(c)`, that is `c | ('x' - 'X')`, on a byte value. -/
def lower (c : Nat) : Nat := c ||| 0x20

/-- The digit value the body of the `ParseUint` loop assigns to one input
byte: decimal digits map to 0..9, ASCII letters to 10..35, anything else is
the `default` branch (a syntax error), reported here as `none`. -/
def digitVal (c : Nat) : Option Nat :=
  if 48 ≤ c ∧ c ≤ 57 then some (c - 48)
  else if 97 ≤ lower c ∧ lower c ≤ 122 then some (lower c - 97 + 10)
  else none

/-- The `for _, c := range []byte(s)` loop of `ParseUint` for an explicit
base, with `uint64` wrap-around arithmetic written out. A character outside
ASCII stands for bytes that are all at least 0x80, which take the `default`
branch exactly as the character's code point does here. -/
def parseLoop (base cutoff maxVal : Nat) : List Char → Nat → Nat × Option NumError
  | [], n => (n, none)
  | c :: cs, n =>
    match digitVal c.toNat with
    | none => (0, some .ErrSyntax)
    | some d =>
      if d ≥ base then (0, some .ErrSyntax)
      else if n ≥ cutoff then (maxVal, some .ErrRange)
      else
        let n0 := (n * base) % 2 ^ 64
        let n1 := (n0 + d) % 2 ^ 64
        if n1 < n0 ∨ n1 > maxVal then (maxVal, some .ErrRange)
        else parseLoop base cutoff maxVal cs n1

/-- Model of `strconv.ParseUint(s, base, bitSize)` for an explicit base in
2..36 (the handlers always pass base 10 and bitSize 32). Base 0, which Go
resolves from a literal marker in front of the digits, is not used by the
handlers and is not modelled: it is reported as a base error. The result is
Go's pair of the value and the error, `none` standing for a nil error. -/
def ParseUint (s : String) (base bitSize : Nat) : Nat × Option NumError :=
  if s = "" then (0, some .ErrSyntax)
  else if ¬ (2 ≤ base ∧ base ≤ 36) then (0, some .ErrBase)
  else
    let bitSize := if bitSize = 0 then 64 else bitSize
    if bitSize > 64 then (0, some .ErrBitSize)
    else
    let cutoff := maxUint64 / base + 1
    let maxVal := (2 ^ bitSize % 2 ^ 64 + 2 ^ 64 - 1) % 2 ^ 64
    parseLoop base cutoff maxVal s.toList 0

/-- The value of a string of decimal digits, most significant digit first. -/
def decimalValue (cs : List Char) (acc : Nat) : Nat :=
  cs.foldl (fun n c => 10 * n + (c.toNat - 48)) acc

/-- A character is one of the ASCII digits 0 to 9. -/
def isAsciiDigit (c : Char) : Bool := decide (48 ≤ c.toNat ∧ c.toNat ≤ 57)

/-- The wording of the specification for an acceptable age or id: a
non-empty string of ASCII digits whose value is at most 4294967295. -/
def isUint32Decimal (s : String) : Bool :=
  !s.toList.isEmpty && s.toList.all isAsciiDigit && decide (decimalValue s.toList 0 ≤ 4294967295)

/-! ## The User entity and the users table behind the gateway -/

/-- Modelled from the spec: the `models.User` record, whose declaration is
not part of the handler file. It has a system-generated unsigned `id`, the
texts `name` and `email`, and an unsigned `age`. -/
structure User where
  ID : Nat
  Name : String
  Email : String
  Age : Nat
  deriving DecidableEq

/-- The zero value of `models.User`, as in `var user models.User`. -/
def User.zero : User := { ID := 0, Name := "", Email := "", Age := 0 }

/-- The five calls the handlers make on the ORM handle. -/
inductive DbOp where
  | Create
  | Find
  | First
  | Save
  | Delete
  deriving DecidableEq

/-- What a gateway call can report in `result.Error`: a lookup miss, a
statement without a condition, a violated primary-key constraint, or a
failure of the connection or query while running the given call. -/
inductive DbError where
  | ErrRecordNotFound
  | ErrMissingWhereClause
  | ErrDuplicatedKey
  | Failure (op : DbOp)
  deriving DecidableEq

/-- One entry of the journal of gateway calls, with the argument passed. -/
inductive DbCall where
  | Create (u : User)
  | Find
  | First (id : Nat)
  | Save (u : User)
  | Delete (u : User)
  deriving DecidableEq

/-- The `users` table: its rows in storage order and the next value of the
auto-assigned primary key. -/
structure Table where
  rows : List User
  nextID : Nat
  deriving DecidableEq

/-- Everything outside the handler that a request can observe or change:
whether `db.ConnectDB` fails, which gateway calls fail for a reason other
than a lookup miss while this request runs, the table, the journal of gateway
calls issued so far, and the process log. -/
structure World where
  connectErr : Option String
  faults : List DbOp
  table : Table
  calls : List DbCall
  log : List String
  deriving DecidableEq

/-- The body bytes handed to the response writer: a plain-text message from
`http.Error`, or the JSON encoding of one user or of a sequence of users
(kept as the encoded value itself). -/
inductive Payload where
  | text (msg : String)
  | user (u : User)
  | users (us : List User)
  deriving DecidableEq

/-- The `http.ResponseWriter` of one request: the status passed to
`WriteHeader` (`none` while nothing has been written), the Content-Type
header and the body. -/
structure ResponseWriter where
  status : Option Nat
  contentType : Option String
  body : Option Payload
  deriving DecidableEq

/-- The response writer as the server hands it to a handler. -/
def ResponseWriter.fresh : ResponseWriter := { status := none, contentType := none, body := none }

/-- The request as a handler sees it: whether `r.ParseForm()` reports an
error, the form values it leaves in `r.Form`, and the router parameters. -/
structure Request where
  parseFormErr : Option String
  form : List (String × String)
  params : List (String × String)
  deriving DecidableEq

/-- The state a handler runs in. -/
structure HState where
  world : World
  w : ResponseWriter
  deriving DecidableEq

/-- The result of running handler code: it returns a value, or the process
has been terminated with an exit status (`os.Exit`), in which case nothing
after the terminating call runs. -/
inductive Run (α : Type) where
  | ret (a : α) (s : HState)
  | exit (code : Nat) (s : HState)

/-- Handler code: a function of the state that may terminate the process. -/
def Handler (α : Type) : Type := HState → Run α

/-- Sequencing of handler code returns at once when the process exited. -/
def Handler.bind {α β : Type} (m : Handler α) (f : α → Handler β) : Handler β :=
  fun s => match m s with
    | .ret a s1 => f a s1
    | .exit c s1 => .exit c s1

instance : Monad Handler where
  pure a := fun s => .ret a s
  bind := Handler.bind

/-- The state in which a run ended. -/
def Run.state {α : Type} : Run α → HState
  | .ret _ s => s
  | .exit _ s => s

/-- The exit status of the process if the run terminated it. -/
def Run.exitCode {α : Type} : Run α → Option Nat
  | .ret _ _ => none
  | .exit c _ => some c

/-- The status of the response written during the run, if any. -/
def Run.status {α : Type} (r : Run α) : Option Nat := r.state.w.status

/-- The body of the response written during the run, if any. -/
def Run.body {α : Type} (r : Run α) : Option Payload := r.state.w.body

/-- The table after the run. -/
def Run.table {α : Type} (r : Run α) : Table := r.state.world.table

/-- The journal of gateway calls after the run. -/
def Run.calls {α : Type} (r : Run α) : List DbCall := r.state.world.calls

/-! ## log, net/http and httprouter -/

/-- Model of `log.Println`: one more line in the process log. -/
def logPrintln (msg : String) : Handler Unit :=
  fun s => .ret () { s with world := { s.world with log := s.world.log ++ [msg] } }

/-- Model of `log.Fatal`: prints the line, then calls `os.Exit(1)`. -/
def logFatal (msg : String) : Handler Unit :=
  fun s => .exit 1 { s with world := { s.world with log := s.world.log ++ [msg] } }

/-- Model of `w.WriteHeader(code)`. -/
def WriteHeader (code : Nat) : Handler Unit :=
  fun s => .ret () { s with w := { s.w with status := some code } }

/-- Model of `w.Header().Set("Content-Type", v)`. -/
def HeaderSetContentType (v : String) : Handler Unit :=
  fun s => .ret () { s with w := { s.w with contentType := some v } }

/-- Model of `w.Write(body)`. -/
def Write (body : Payload) : Handler Unit :=
  fun s => .ret () { s with w := { s.w with body := some body } }

/-- Model of `http.Error(w, msg, code)`: a plain-text response with the
given status and message (the newline written after the message is left
out). -/
def httpError (msg : String) (code : Nat) : Handler Unit :=
  fun s => .ret () { s with w := { status := some code, contentType := some "text/plain; charset=utf-8", body := some (.text msg) } }

/-- First value stored under a key, or the empty string. -/
def lookupFirst (key : String) : List (String × String) → String
  | [] => ""
  | (k, v) :: rest => if k = key then v else lookupFirst key rest

/-- Model of `r.FormValue(key)`: the first value for the key, or "". -/
def Request.FormValue (r : Request) (key : String) : String := lookupFirst key r.form

/-- Model of `ps.ByName(name)`: the first matching parameter, or "". -/
def Request.ByName (r : Request) (name : String) : String := lookupFirst name r.params

/-- Model of `json.Marshal` on a user: it cannot fail on a record of texts
and unsigned integers, so the error is always nil. -/
def jsonMarshalUser (u : User) : Payload × Option String := (.user u, none)

/-- Model of `json.Marshal` on a sequence of users; the error is always nil. -/
def jsonMarshalUsers (us : List User) : Payload × Option String := (.users us, none)

/-! ## The persistence gateway -/

/-- Whether the table holds a row with the given primary key. -/
def Table.hasID (t : Table) (id : Nat) : Bool := t.rows.any (fun r => r.ID == id)

/-- The row with the given primary key, if any (`WHERE id = ? LIMIT 1`). -/
def Table.lookup (t : Table) (id : Nat) : Option User := t.rows.find? (fun r => r.ID == id)

/-- Insert of one row. A zero primary key is left to the table, which assigns
its next value; a key already taken violates the primary-key constraint. -/
def Table.insert (t : Table) (u : User) : Table × Option DbError :=
  let id := if u.ID = 0 then t.nextID else u.ID
  if t.hasID id then (t, some .ErrDuplicatedKey)
  else ({ rows := t.rows ++ [{ u with ID := id }], nextID := max t.nextID (id + 1) }, none)

/-- Write of all columns of the row whose primary key is that of `u`. -/
def Table.update (t : Table) (u : User) : Table :=
  { t with rows := t.rows.map (fun r => if r.ID = u.ID then u else r) }

/-- Removal of the rows whose primary key is the given one. -/
def Table.remove (t : Table) (id : Nat) : Table :=
  { t with rows := t.rows.filter (fun r => r.ID != id) }

/-- The ORM handle returned by `db.ConnectDB`. -/
structure DB where
  deriving DecidableEq

/-- The value a gateway call returns; the handlers read only its `Error`. -/
structure DBResult where
  Error : Option DbError
  deriving DecidableEq

/-- One more entry in the journal of gateway calls. -/
def World.record (wd : World) (c : DbCall) : World := { wd with calls := wd.calls ++ [c] }

/-- Modelled from the spec: `db.ConnectDB`, which opens the connection to the
relational store and returns the handle and an error; the package is not part
of the handler file. Whether it fails is a fact of the world. -/
def ConnectDB : Handler (DB × Option String) :=
  fun s => .ret ({}, s.world.connectErr) s

/-- Model of `db.Create(&u)`: inserts the row unless the call fails. -/
def DB.Create (_db : DB) (u : User) : Handler DBResult := fun s =>
  let wd := s.world.record (.Create u)
  if DbOp.Create ∈ wd.faults then .ret { Error := some (.Failure .Create) } { s with world := wd }
  else
    let (t, err) := wd.table.insert u
    .ret { Error := err } { s with world := { wd with table := t } }

/-- Model of `db.Find(&users)`: all rows, in the table's order. -/
def DB.Find (_db : DB) : Handler (List User × DBResult) := fun s =>
  let wd := s.world.record .Find
  if DbOp.Find ∈ wd.faults then .ret ([], { Error := some (.Failure .Find) }) { s with world := wd }
  else .ret (wd.table.rows, { Error := none }) { s with world := wd }

/-- Model of `db.First(&dest, id)`: fills `dest` with the row whose primary
key is `id`, or reports `ErrRecordNotFound` and leaves `dest` as it was. -/
def DB.First (_db : DB) (dest : User) (id : Nat) : Handler (User × DBResult) := fun s =>
  let wd := s.world.record (.First id)
  if DbOp.First ∈ wd.faults then .ret (dest, { Error := some (.Failure .First) }) { s with world := wd }
  else
    match wd.table.lookup id with
    | some u => .ret (u, { Error := none }) { s with world := wd }
    | none => .ret (dest, { Error := some .ErrRecordNotFound }) { s with world := wd }

/-- Model of `db.Save(&u)`: with a zero primary key it inserts; otherwise it
writes all columns of the row with that key, inserting the row when no such
row exists. -/
def DB.Save (_db : DB) (u : User) : Handler DBResult := fun s =>
  let wd := s.world.record (.Save u)
  if DbOp.Save ∈ wd.faults then .ret { Error := some (.Failure .Save) } { s with world := wd }
  else if u.ID ≠ 0 ∧ wd.table.hasID u.ID then
    .ret { Error := none } { s with world := { wd with table := wd.table.update u } }
  else
    let (t, err) := wd.table.insert u
    .ret { Error := err } { s with world := { wd with table := t } }

/-- Model of `db.Delete(&u)`: removes the row with the primary key of `u`; a
zero primary key leaves the statement without a condition, which is refused. -/
def DB.Delete (_db : DB) (u : User) : Handler DBResult := fun s =>
  let wd := s.world.record (.Delete u)
  if DbOp.Delete ∈ wd.faults then .ret { Error := some (.Failure .Delete) } { s with world := wd }
  else if u.ID = 0 then .ret { Error := some .ErrMissingWhereClause } { s with world := wd }
  else .ret { Error := none } { s with world := { wd with table := wd.table.remove u.ID } }

/-- Go's conversion `uint(n)` of a `uint64` on a 64-bit platform. -/
def uint (n : Nat) : Nat := n % 2 ^ 64

/-! ## The handlers -/

/-- CREATE USER. -/
def HttpCreateUser (r : Request) : Handler Unit := do
  let (db, err) ← ConnectDB
  if err ≠ none then
    logFatal (err.getD "")
    httpError "Internal Server Error" 500
    return
  -- Parse form data
  let err := r.parseFormErr
  if err ≠ none then
    logPrintln "Error parsing form data:"
    httpError "Bad Request" 400
    return
  -- Get form values
  let name := r.FormValue "name"
  let email := r.FormValue "email"
  let ageStr := r.FormValue "age"
  -- Convert age to unit
  let (age, err) := ParseUint ageStr 10 32
  if err ≠ none then
    logPrintln "Error converting age to unit:"
    httpError "Bad Request" 400
    return
  let newUser : User := { User.zero with Name := name, Email := email, Age := uint age }
  -- Create user
  let result ← db.Create newUser
  if result.Error ≠ none then
    logPrintln "Error creating user:"
    httpError "Internal Server Error" 500
    return
  -- Return a success response
  WriteHeader 201

/-- GET ALL USERS. -/
def HttpGetUsers (_r : Request) : Handler Unit := do
  let (db, err) ← ConnectDB
  if err ≠ none then
    logFatal (err.getD "")
    httpError "Internal Server Error" 500
    return
  -- Query the database for all users
  let (users, result) ← db.Find
  if result.Error ≠ none then
    logPrintln "Error fetching users from the database:"
    httpError "Internal Server Error" 500
    return
  let (usersJSON, err) := jsonMarshalUsers users
  if err ≠ none then
    logPrintln "Error marshaling users to JSON:"
    httpError "Internal Server Error" 500
    return
  -- Set Content-Type header
  HeaderSetContentType "application/json"
  -- Write JSON response to the client
  WriteHeader 200
  Write usersJSON

/-- GET ONE USER. -/
def HttpGetUser (r : Request) : Handler Unit := do
  let (db, err) ← ConnectDB
  if err ≠ none then
    logFatal (err.getD "")
    httpError "Internal Server Error" 500
    return
  -- Extract user ID from request URL parameters
  let userIDStr := r.ByName "id"
  let (userID, err) := ParseUint userIDStr 10 32
  if err ≠ none then
    logPrintln "Error converting userId to unit32:"
    httpError "Bad Request" 400
    return
  -- Query the DB for the user with the specified ID
  let (user, result) ← db.First User.zero userID
  if result.Error ≠ none then
    logPrintln "Error fetching user from the database:"
    httpError "User not found" 404
    return
  let (userJSON, err) := jsonMarshalUser user
  if err ≠ none then
    logPrintln "Error marshaling user to JSON:"
    httpError "Internal Server Error" 500
    return
  HeaderSetContentType "application/json"
  WriteHeader 200
  Write userJSON

/-- UPDATE USER. -/
def HttpUpdateUser (r : Request) : Handler Unit := do
  let (db, err) ← ConnectDB
  if err ≠ none then
    logFatal (err.getD "")
    httpError "Internal Server Error" 500
    return
  -- Extract user ID from request URL parameters
  let userIDStr := r.ByName "id"
  let (userID, err) := ParseUint userIDStr 10 32
  if err ≠ none then
    logPrintln "Error converting userId to unit32:"
    httpError "Bad Request" 400
    return
  let (existingUser, result) ← db.First User.zero userID
  let mut existingUser := existingUser
  if result.Error ≠ none then
    logPrintln "Error fetching user from the database:"
    httpError "User not found" 404
    return
  -- Get form values
  let name := r.FormValue "name"
  let email := r.FormValue "email"
  let ageStr := r.FormValue "age"
  -- Update user fields if provided
  if name ≠ "" then
    existingUser := { existingUser with Name := name }
  if email ≠ "" then
    existingUser := { existingUser with Email := email }
  if ageStr ≠ "" then
    let (age, err) := ParseUint ageStr 10 32
    if err ≠ none then
      logPrintln "Error converting age to unit32:"
      httpError "Bad Request" 400
      return
    existingUser := { existingUser with Age := uint age }
  -- Save the updated user to the database
  let _ ← db.Save existingUser
  WriteHeader 200

/-- DELETE USER. -/
def HttpDeleteUser (r : Request) : Handler Unit := do
  let (db, err) ← ConnectDB
  if err ≠ none then
    logFatal (err.getD "")
    httpError "Internal Server Error" 500
    return
  -- Extract user ID from request URL parameters
  let userIDStr := r.ByName "id"
  let (userID, err) := ParseUint userIDStr 10 32
  if err ≠ none then
    logPrintln "Error converting userID to unit32:"
    httpError "Bad Request" 400
    return
  let (existingUser, result) ← db.First User.zero userID
  if result.Error ≠ none then
    logPrintln "Error fetching user from the database:"
    httpError "User not found" 404
    return
  let _ ← db.Delete existingUser
  WriteHeader 204

/-- The server running one handler on one request: the handler starts with a
fresh response writer in the given world. -/
def serve (h : Request → Handler Unit) (wd : World) (r : Request) : Run Unit :=
  h r { world := wd, w := ResponseWriter.fresh }

/-- A table as the store keeps it: primary keys start at 1, are below the
next key to assign, and no two rows share one. -/
def Table.WF (t : Table) : Prop :=
  0 < t.nextID ∧ (∀ u ∈ t.rows, 0 < u.ID ∧ u.ID < t.nextID) ∧ (t.rows.map User.ID).Nodup

/-- A form-encoded request with the given id parameter and form values. -/
def mkRequest (id : String) (form : List (String × String)) : Request :=
  { parseFormErr := none, form := form, params := [("id", id)] }

/-- A world with the given table, an acquired connection and no failing call. -/
def mkWorld (t : Table) : World :=
  { connectErr := none, faults := [], table := t, calls := [], log := [] }

/-- The record an update is to save, in the words of the specification: the
id of the stored record, and for each of name, email and age the supplied
value when it is non-empty (for age: its decimal value) and the stored value
otherwise. -/
def mergedRecord (u : User) (name email age : String) : User :=
  { ID := u.ID,
    Name := if name ≠ "" then name else u.Name,
    Email := if email ≠ "" then email else u.Email,
    Age := if age ≠ "" then decimalValue age.toList 0 else u.Age }

/-- The record a create is to store, in the words of the specification: the
submitted name and email and the decimal value of the submitted age, under
the id the store assigns. -/
def createdRecord (id : Nat) (name email age : String) : User :=
  { ID := id, Name := name, Email := email, Age := decimalValue age.toList 0 }

/-- The empty table of a new store. -/
def emptyTable : Table := { rows := [], nextID := 1 }

/-- The record the round trip of the specification creates, under its id. -/
def ann : User := { ID := 1, Name := "Ann", Email := "a@x.com", Age := 30 }

/-- A second record. -/
def bob : User := { ID := 2, Name := "Bob", Email := "b@x.com", Age := 41 }

/-- A table with two rows. -/
def twoTable : Table := { rows := [ann, bob], nextID := 3 }

/-! ## Facts about ParseUint at base 10 and 32 bits -/

theorem digitVal_of_digit (c : Char) (h : isAsciiDigit c = true) :
    digitVal c.toNat = some (c.toNat - 48) := by
  simp only [isAsciiDigit, decide_eq_true_eq] at h
  simp [digitVal, h]

theorem digitVal_not_digit (c : Char) (h : isAsciiDigit c = false) :
    digitVal c.toNat = none ∨ ∃ d, digitVal c.toNat = some d ∧ 10 ≤ d := by
  simp only [isAsciiDigit, decide_eq_false_iff_not] at h
  unfold digitVal
  rw [if_neg h]
  by_cases h2 : 97 ≤ lower c.toNat ∧ lower c.toNat ≤ 122
  · right
    exact ⟨_, by rw [if_pos h2], by omega⟩
  · left
    rw [if_neg h2]

theorem le_decimalValue (cs : List Char) (n : Nat) : n ≤ decimalValue cs n := by
  induction cs generalizing n with
  | nil => simp [decimalValue]
  | cons c cs ih =>
    have h := ih (10 * n + (c.toNat - 48))
    simp only [decimalValue, List.foldl_cons] at h ⊢
    omega

theorem parseLoop_err_none_iff (cs : List Char) (n : Nat) (hn : n ≤ 4294967295) :
    (parseLoop 10 (maxUint64 / 10 + 1) 4294967295 cs n).2 = none ↔
      (cs.all isAsciiDigit = true ∧ decimalValue cs n ≤ 4294967295) := by
  induction cs generalizing n with
  | nil => simp [parseLoop, decimalValue, hn]
  | cons c cs ih =>
    cases hc : isAsciiDigit c with
    | false =>
      rcases digitVal_not_digit c hc with h | ⟨d, h, hd⟩
      · simp [parseLoop, h, hc]
      · have hd2 : ¬ d < 10 := by omega
        simp [parseLoop, h, hc, hd]
    | true =>
      have hdv := digitVal_of_digit c hc
      simp only [isAsciiDigit, decide_eq_true_eq] at hc
      have hcut : ¬ (n ≥ maxUint64 / 10 + 1) := by
        simp only [maxUint64]; omega
      have hd : ¬ (c.toNat - 48 ≥ 10) := by omega
      have e0 : n * 10 % 2 ^ 64 = n * 10 := Nat.mod_eq_of_lt (by omega)
      have e1 : (n * 10 + (c.toNat - 48)) % 2 ^ 64 = n * 10 + (c.toNat - 48) :=
        Nat.mod_eq_of_lt (by omega)
      have hstep : decimalValue (c :: cs) n = decimalValue cs (n * 10 + (c.toNat - 48)) := by
        simp [decimalValue, Nat.mul_comm]
      rw [parseLoop, hdv]
      simp only [if_neg hd, if_neg hcut, e0, e1, hstep]
      by_cases hbig : n * 10 + (c.toNat - 48) > 4294967295
      · have hmono := le_decimalValue cs (n * 10 + (c.toNat - 48))
        have : ¬ decimalValue cs (n * 10 + (c.toNat - 48)) ≤ 4294967295 := by omega
        simp [hbig, this]
      · have hlt : ¬ (n * 10 + (c.toNat - 48) < n * 10) := by omega
        rw [if_neg (by rintro (h | h); exact hlt h; exact hbig h)]
        rw [ih _ (by omega)]
        simp [isAsciiDigit, hc]

theorem parseLoop_value (cs : List Char) (n : Nat)
    (h : (parseLoop 10 (maxUint64 / 10 + 1) 4294967295 cs n).2 = none) :
    (parseLoop 10 (maxUint64 / 10 + 1) 4294967295 cs n).1 = decimalValue cs n := by
  induction cs generalizing n with
  | nil => simp [parseLoop, decimalValue]
  | cons c cs ih =>
    rw [parseLoop] at h ⊢
    cases hdv : digitVal c.toNat with
    | none => simp [hdv] at h
    | some d =>
      simp only [hdv] at h ⊢
      by_cases h1 : d ≥ 10
      · simp [h1] at h
      by_cases h2 : n ≥ maxUint64 / 10 + 1
      · simp [h1, h2] at h
      by_cases h3 : (n * 10 % 2 ^ 64 + d) % 2 ^ 64 < n * 10 % 2 ^ 64 ∨
          (n * 10 % 2 ^ 64 + d) % 2 ^ 64 > 4294967295
      · rw [if_neg h1, if_neg h2, if_pos h3] at h
        cases h
      simp only [if_neg h1, if_neg h2, if_neg h3] at h ⊢
      rw [ih _ h]
      have hd : d = c.toNat - 48 := by
        unfold digitVal at hdv
        by_cases hc : 48 ≤ c.toNat ∧ c.toNat ≤ 57
        · rw [if_pos hc] at hdv; exact (Option.some.inj hdv).symm
        · rw [if_neg hc] at hdv
          by_cases hl : 97 ≤ lower c.toNat ∧ lower c.toNat ≤ 122
          · rw [if_pos hl] at hdv
            have := Option.some.inj hdv
            omega
          · rw [if_neg hl] at hdv; cases hdv
      have hn : n < maxUint64 / 10 + 1 := by omega
      simp only [maxUint64] at hn
      have e0 : n * 10 % 2 ^ 64 = n * 10 := Nat.mod_eq_of_lt (by omega)
      have e1 : (n * 10 + d) % 2 ^ 64 = n * 10 + d := by
        rw [e0] at h3
        by_contra hne
        have : 2 ^ 64 ≤ n * 10 + d := by
          by_contra hlt
          exact hne (Nat.mod_eq_of_lt (by omega))
        have h4 : (n * 10 + d) % 2 ^ 64 = n * 10 + d - 2 ^ 64 := by
          rw [Nat.mod_eq_sub_mod this]
          exact Nat.mod_eq_of_lt (by omega)
        omega
      rw [e0, e1, hd]
      simp [decimalValue, Nat.mul_comm]

theorem ParseUint_unfold (s : String) (hs : s ≠ "") :
    ParseUint s 10 32 = parseLoop 10 (maxUint64 / 10 + 1) 4294967295 s.toList 0 := by
  simp [ParseUint, hs]

theorem toList_ne_nil (s : String) (hs : s ≠ "") : s.toList ≠ [] := by
  intro h
  apply hs
  cases s with
  | mk l =>
    simp only [String.toList] at h
    subst h
    rfl

/-- ParseUint at base 10 and 32 bits reports no error exactly on the strings
the specification describes: non-empty, ASCII digits only, value at most
4294967295. -/
theorem ParseUint_err_none_iff (s : String) :
    (ParseUint s 10 32).2 = none ↔ isUint32Decimal s = true := by
  by_cases hs : s = ""
  · subst hs; decide
  · rw [ParseUint_unfold s hs, parseLoop_err_none_iff _ _ (by omega)]
    have hne := toList_ne_nil s hs
    have hemp : s.toList.isEmpty = false := by
      cases hl : s.toList with
      | nil => exact absurd hl hne
      | cons a l => rfl
    rw [isUint32Decimal, hemp]
    simp

/-- When ParseUint reports no error, the value is the decimal value of the
string, which is at most 4294967295. -/
theorem ParseUint_value (s : String) (h : (ParseUint s 10 32).2 = none) :
    (ParseUint s 10 32).1 = decimalValue s.toList 0 ∧ (ParseUint s 10 32).1 ≤ 4294967295 := by
  have hd := (ParseUint_err_none_iff s).1 h
  by_cases hs : s = ""
  · subst hs; revert h; decide
  · rw [ParseUint_unfold s hs] at h ⊢
    have hv := parseLoop_value _ _ h
    refine ⟨hv, ?_⟩
    rw [hv]
    simp only [isUint32Decimal, Bool.and_eq_true, decide_eq_true_eq] at hd
    exact hd.2

/-- Sample strings: text, the empty string, signed numbers and 2^32 are not
acceptable, the largest 32-bit value is. -/
theorem isUint32Decimal_samples :
    isUint32Decimal "abc" = false ∧ isUint32Decimal "" = false ∧
    isUint32Decimal "-1" = false ∧ isUint32Decimal "+5" = false ∧
    isUint32Decimal "4294967296" = false ∧ isUint32Decimal "4294967295" = true ∧
    ParseUint "4294967296" 10 32 = (4294967295, some .ErrRange) ∧
    ParseUint "abc" 10 32 = (0, some .ErrSyntax) := by
  decide

theorem uint_of_le (n : Nat) (h : n ≤ 4294967295) : uint n = n := by
  unfold uint
  exact Nat.mod_eq_of_lt (by omega)

/-! ## Facts about the table -/

theorem Table.lookup_eq_none (t : Table) (i : Nat) (h : ∀ u ∈ t.rows, u.ID ≠ i) :
    t.lookup i = none := by
  unfold Table.lookup
  rw [List.find?_eq_none]
  intro u hu
  simpa using h u hu

theorem Table.lookup_some (t : Table) (i : Nat) (u : User) (h : t.lookup i = some u) :
    u ∈ t.rows ∧ u.ID = i := by
  unfold Table.lookup at h
  refine ⟨List.mem_of_find?_eq_some h, ?_⟩
  simpa using List.find?_some h

theorem Table.lookup_isSome (t : Table) (i : Nat) (h : ∃ u ∈ t.rows, u.ID = i) :
    ∃ v, t.lookup i = some v := by
  cases hl : t.lookup i with
  | some v => exact ⟨v, rfl⟩
  | none =>
    obtain ⟨u, hu, hi⟩ := h
    unfold Table.lookup at hl
    rw [List.find?_eq_none] at hl
    have := hl u hu
    simp [hi] at this

theorem Table.hasID_eq_true (t : Table) (i : Nat) (h : ∃ u ∈ t.rows, u.ID = i) :
    t.hasID i = true := by
  obtain ⟨u, hu, hi⟩ := h
  unfold Table.hasID
  rw [List.any_eq_true]
  exact ⟨u, hu, by simp [hi]⟩

theorem Table.hasID_eq_false (t : Table) (i : Nat) (h : ∀ u ∈ t.rows, u.ID ≠ i) :
    t.hasID i = false := by
  unfold Table.hasID
  rw [List.any_eq_false]
  intro u hu
  simpa using h u hu

theorem find_of_nodup (rows : List User) (u : User) (hu : u ∈ rows)
    (hnd : (rows.map User.ID).Nodup) : rows.find? (fun r => r.ID == u.ID) = some u := by
  induction rows with
  | nil => cases hu
  | cons a l ih =>
    rw [List.map_cons, List.nodup_cons] at hnd
    rcases List.mem_cons.1 hu with rfl | hmem
    · simp
    · have hne : a.ID ≠ u.ID := by
        intro he
        exact hnd.1 (he ▸ List.mem_map_of_mem User.ID hmem)
      rw [List.find?_cons_of_neg _ (by simpa using hne)]
      exact ih hmem hnd.2

theorem Table.lookup_of_mem (t : Table) (u : User) (hwf : t.WF) (hu : u ∈ t.rows) :
    t.lookup u.ID = some u :=
  find_of_nodup t.rows u hu hwf.2.2

theorem Table.nextID_free (t : Table) (hwf : t.WF) : t.hasID t.nextID = false := by
  apply Table.hasID_eq_false
  intro u hu
  have := (hwf.2.1 u hu).2
  omega

theorem Table.lookup_remove (t : Table) (i : Nat) : (t.remove i).lookup i = none := by
  apply Table.lookup_eq_none
  intro u hu
  simp only [Table.remove, List.mem_filter] at hu
  simpa using hu.2

theorem Table.lookup_append_new (rows : List User) (n : Nat) (u : User) (i : Nat)
    (hfree : ∀ v ∈ rows, v.ID ≠ i) (hu : u.ID = i) :
    Table.lookup { rows := rows ++ [u], nextID := n } i = some u := by
  unfold Table.lookup
  simp only
  rw [List.find?_append]
  have : rows.find? (fun r => r.ID == i) = none := by
    rw [List.find?_eq_none]
    intro v hv
    simpa using hfree v hv
  rw [this]
  simp [hu]

theorem find_map_update_same (rows : List User) (m u : User)
    (h : rows.find? (fun r => r.ID == m.ID) = some u) :
    (rows.map (fun r => if r.ID = m.ID then m else r)).find? (fun r => r.ID == m.ID) = some m := by
  induction rows with
  | nil => simp at h
  | cons a l ih =>
    by_cases ha : a.ID = m.ID
    · simp [ha]
    · rw [List.find?_cons_of_neg _ (by simpa using ha)] at h
      rw [List.map_cons, if_neg ha, List.find?_cons_of_neg _ (by simpa using ha)]
      exact ih h

theorem find_map_update_other (rows : List User) (m : User) (j : Nat) (hj : j ≠ m.ID) :
    (rows.map (fun r => if r.ID = m.ID then m else r)).find? (fun r => r.ID == j) =
      rows.find? (fun r => r.ID == j) := by
  induction rows with
  | nil => rfl
  | cons a l ih =>
    by_cases ha : a.ID = m.ID
    · have h1 : ¬ (a.ID = j) := by omega
      have h2 : ¬ (m.ID = j) := by omega
      rw [List.map_cons, if_pos ha, List.find?_cons_of_neg _ (by simpa using h2),
        List.find?_cons_of_neg _ (by simpa using h1)]
      exact ih
    · rw [List.map_cons, if_neg ha]
      by_cases hj2 : a.ID = j
      · simp [hj2]
      · rw [List.find?_cons_of_neg _ (by simpa using hj2),
          List.find?_cons_of_neg _ (by simpa using hj2)]
        exact ih

theorem Table.lookup_update_same (t : Table) (m u : User) (h : t.lookup m.ID = some u) :
    (t.update m).lookup m.ID = some m :=
  find_map_update_same t.rows m u h

theorem Table.lookup_update_other (t : Table) (m : User) (j : Nat) (hj : j ≠ m.ID) :
    (t.update m).lookup j = t.lookup j :=
  find_map_update_other t.rows m j hj

theorem Table.WF_insert_next (t : Table) (u : User) (hwf : t.WF) (hu : u.ID = t.nextID) :
    Table.WF { rows := t.rows ++ [u], nextID := t.nextID + 1 } := by
  obtain ⟨h0, hb, hnd⟩ := hwf
  refine ⟨by simp, ?_, ?_⟩
  · intro v hv
    simp only [List.mem_append, List.mem_singleton] at hv
    rcases hv with hv | rfl
    · have := hb v hv
      simp only
      omega
    · simp only
      omega
  · simp only [List.map_append, List.map_cons, List.map_nil]
    rw [List.nodup_append]
    refine ⟨hnd, by simp, ?_⟩
    intro a ha hb2
    simp only [List.mem_singleton] at hb2
    obtain ⟨v, hv, rfl⟩ := List.mem_map.1 ha
    have := (hb v hv).2
    omega

theorem Table.WF_update (t : Table) (m u : User) (hwf : t.WF) (hu : u ∈ t.rows)
    (hm : m.ID = u.ID) : (t.update m).WF := by
  obtain ⟨h0, hb, hnd⟩ := hwf
  have hids : (t.update m).rows.map User.ID = t.rows.map User.ID := by
    simp only [Table.update, List.map_map]
    apply List.map_congr_left
    intro v _
    by_cases hv : v.ID = m.ID <;> simp [hv]
  refine ⟨h0, ?_, by rw [hids]; exact hnd⟩
  intro v hv
  simp only [Table.update, List.mem_map] at hv
  obtain ⟨x, hx, rfl⟩ := hv
  by_cases hxm : x.ID = m.ID
  · rw [if_pos hxm, hm]
    exact hb u hu
  · rw [if_neg hxm]
    exact hb x hx

theorem Table.WF_remove (t : Table) (i : Nat) (hwf : t.WF) : (t.remove i).WF := by
  obtain ⟨h0, hb, hnd⟩ := hwf
  refine ⟨h0, ?_, ?_⟩
  · intro v hv
    simp only [Table.remove, List.mem_filter] at hv
    exact hb v hv.1
  · simp only [Table.remove]
    exact (List.filter_sublist t.rows).map User.ID |>.nodup hnd

/-! ## Unfolding rules for the handler code -/

theorem ParseUint_err_of_not_decimal (s : String) (h : isUint32Decimal s = false) :
    (ParseUint s 10 32).2 ≠ none := by
  intro hn
  rw [(ParseUint_err_none_iff s).1 hn] at h
  cases h

theorem ParseUint_of_decimal (s : String) (h : isUint32Decimal s = true) :
    ParseUint s 10 32 = (decimalValue s.toList 0, none) := by
  have h2 := (ParseUint_err_none_iff s).2 h
  have h1 := (ParseUint_value s h2).1
  exact Prod.ext h1 h2

theorem uint_decimal (s : String) (h : isUint32Decimal s = true) :
    uint (decimalValue s.toList 0) = decimalValue s.toList 0 := by
  apply uint_of_le
  simp only [isUint32Decimal, Bool.and_eq_true, decide_eq_true_eq] at h
  exact h.2

/-! ## Runs of the handlers on their main paths -/

theorem lookup_error_gives_404 (wd : World) (r : Request) (i : Nat)
    (hconn : wd.connectErr = none)
    (hid : ParseUint (r.ByName "id") 10 32 = (i, none))
    (herr : DbOp.First ∈ wd.faults ∨ wd.table.lookup i = none) :
    ∀ h ∈ [HttpGetUser, HttpUpdateUser, HttpDeleteUser],
      (serve h wd r).status = some 404 ∧
      (serve h wd r).body = some (.text "User not found") ∧
      (serve h wd r).exitCode = none ∧
      (serve h wd r).table = wd.table ∧
      (serve h wd r).calls = wd.calls ++ [.First i] := by
  intro h hh
  simp only [List.mem_cons, List.mem_singleton, List.not_mem_nil, or_false] at hh
  rcases hh with rfl | rfl | rfl
  · unfold serve HttpGetUser
    simp only [bind, Handler.bind, ConnectDB, hconn, hid, pure]
    by_cases hf : DbOp.First ∈ wd.faults
    · simp [hf, Handler.bind, DB.First, World.record, logPrintln, httpError, Run.status,
        Run.body, Run.state, Run.exitCode, Run.calls, Run.table]
    · have hv : wd.table.lookup i = none := herr.resolve_left hf
      simp [hf, Handler.bind, DB.First, World.record, hv, logPrintln, httpError, Run.status,
        Run.body, Run.state, Run.exitCode, Run.calls, Run.table]
  · unfold serve HttpUpdateUser
    simp only [bind, Handler.bind, ConnectDB, hconn, hid, pure]
    by_cases hf : DbOp.First ∈ wd.faults
    · simp [hf, Handler.bind, DB.First, World.record, logPrintln, httpError, Run.status,
        Run.body, Run.state, Run.exitCode, Run.calls, Run.table]
    · have hv : wd.table.lookup i = none := herr.resolve_left hf
      simp [hf, Handler.bind, DB.First, World.record, hv, logPrintln, httpError, Run.status,
        Run.body, Run.state, Run.exitCode, Run.calls, Run.table]
  · unfold serve HttpDeleteUser
    simp only [bind, Handler.bind, ConnectDB, hconn, hid, pure]
    by_cases hf : DbOp.First ∈ wd.faults
    · simp [hf, Handler.bind, DB.First, World.record, logPrintln, httpError, Run.status,
        Run.body, Run.state, Run.exitCode, Run.calls, Run.table]
    · have hv : wd.table.lookup i = none := herr.resolve_left hf
      simp [hf, Handler.bind, DB.First, World.record, hv, logPrintln, httpError, Run.status,
        Run.body, Run.state, Run.exitCode, Run.calls, Run.table]

theorem miss_gives_404 (wd : World) (r : Request) (i : Nat)
    (hconn : wd.connectErr = none)
    (hid : ParseUint (r.ByName "id") 10 32 = (i, none))
    (hmiss : ∀ u ∈ wd.table.rows, u.ID ≠ i) :
    ∀ h ∈ [HttpGetUser, HttpUpdateUser, HttpDeleteUser],
      (serve h wd r).status = some 404 ∧
      (serve h wd r).body = some (.text "User not found") ∧
      (serve h wd r).exitCode = none ∧
      (serve h wd r).table = wd.table ∧
      (serve h wd r).calls = wd.calls ++ [.First i] :=
  lookup_error_gives_404 wd r i hconn hid (Or.inr (Table.lookup_eq_none _ _ hmiss))

theorem create_201_inv (wd : World) (r : Request)
    (h : (serve HttpCreateUser wd r).status = some 201) :
    wd.connectErr = none ∧ r.parseFormErr = none ∧
      (ParseUint (r.FormValue "age") 10 32).2 = none ∧ DbOp.Create ∉ wd.faults ∧
      wd.table.hasID wd.table.nextID = false := by
  unfold serve HttpCreateUser at h
  by_cases h1 : wd.connectErr = none
  swap
  · simp [bind, Handler.bind, ConnectDB, h1, logFatal, Run.status, Run.state,
      ResponseWriter.fresh] at h
  by_cases h2 : r.parseFormErr = none
  swap
  · simp [bind, Handler.bind, ConnectDB, h1, h2, pure, logPrintln, httpError, Run.status,
      Run.state] at h
  by_cases h3 : (ParseUint (r.FormValue "age") 10 32).2 = none
  swap
  · simp [bind, Handler.bind, ConnectDB, h1, h2, h3, pure, logPrintln, httpError, Run.status,
      Run.state] at h
  by_cases h4 : DbOp.Create ∈ wd.faults
  · simp [bind, Handler.bind, ConnectDB, h1, h2, h3, h4, pure, logPrintln, httpError,
      Run.status, Run.state, DB.Create, World.record] at h
  cases h5 : wd.table.hasID wd.table.nextID with
  | false => exact ⟨h1, h2, h3, h4, rfl⟩
  | true =>
    simp [bind, Handler.bind, ConnectDB, h1, h2, h3, h4, h5, pure, logPrintln, httpError,
      Run.status, Run.state, DB.Create, World.record, Table.insert, User.zero] at h

theorem create_run (wd : World) (r : Request)
    (h1 : wd.connectErr = none) (h2 : r.parseFormErr = none)
    (h3 : (ParseUint (r.FormValue "age") 10 32).2 = none) (h4 : DbOp.Create ∉ wd.faults)
    (h5 : wd.table.hasID wd.table.nextID = false) :
    (serve HttpCreateUser wd r).status = some 201 ∧
    (serve HttpCreateUser wd r).body = none ∧
    (serve HttpCreateUser wd r).exitCode = none ∧
    (serve HttpCreateUser wd r).table =
      { rows := wd.table.rows ++ [createdRecord wd.table.nextID (r.FormValue "name")
          (r.FormValue "email") (r.FormValue "age")],
        nextID := wd.table.nextID + 1 } ∧
    (serve HttpCreateUser wd r).calls =
      wd.calls ++ [.Create (createdRecord 0 (r.FormValue "name") (r.FormValue "email")
        (r.FormValue "age"))] := by
  have hdec := (ParseUint_err_none_iff _).1 h3
  have hval := ParseUint_of_decimal _ hdec
  have hu := uint_decimal _ hdec
  simp only [String.toList] at hu
  unfold serve HttpCreateUser
  simp [bind, Handler.bind, ConnectDB, h1, h2, hval, hu, h4, h5, pure, WriteHeader, Run.status,
    Run.body, Run.state, Run.exitCode, Run.table, Run.calls, DB.Create, World.record,
    Table.insert, User.zero, createdRecord, ResponseWriter.fresh]

theorem get_run (wd : World) (r : Request) (i : Nat) (u : User)
    (hconn : wd.connectErr = none) (hfirst : DbOp.First ∉ wd.faults)
    (hid : ParseUint (r.ByName "id") 10 32 = (i, none))
    (hu : wd.table.lookup i = some u) :
    (serve HttpGetUser wd r).status = some 200 ∧
    (serve HttpGetUser wd r).body = some (.user u) ∧
    (serve HttpGetUser wd r).exitCode = none ∧
    (serve HttpGetUser wd r).table = wd.table := by
  unfold serve HttpGetUser
  simp [bind, Handler.bind, ConnectDB, hconn, hid, hfirst, hu, pure, WriteHeader, Write,
    HeaderSetContentType, jsonMarshalUser, Run.status, Run.body, Run.state, Run.exitCode,
    Run.table, DB.First, World.record]

theorem list_run (wd : World) (r : Request)
    (hconn : wd.connectErr = none) (hfind : DbOp.Find ∉ wd.faults) :
    (serve HttpGetUsers wd r).status = some 200 ∧
    (serve HttpGetUsers wd r).body = some (.users wd.table.rows) ∧
    (serve HttpGetUsers wd r).exitCode = none ∧
    (serve HttpGetUsers wd r).table = wd.table := by
  unfold serve HttpGetUsers
  simp [bind, Handler.bind, ConnectDB, hconn, hfind, pure, WriteHeader, Write,
    HeaderSetContentType, jsonMarshalUsers, Run.status, Run.body, Run.state, Run.exitCode,
    Run.table, DB.Find, World.record]

theorem delete_run (wd : World) (r : Request) (i : Nat) (u : User)
    (hconn : wd.connectErr = none) (hfirst : DbOp.First ∉ wd.faults)
    (hdel : DbOp.Delete ∉ wd.faults)
    (hid : ParseUint (r.ByName "id") 10 32 = (i, none))
    (hu : wd.table.lookup i = some u) (hpos : 0 < i) :
    (serve HttpDeleteUser wd r).status = some 204 ∧
    (serve HttpDeleteUser wd r).body = none ∧
    (serve HttpDeleteUser wd r).exitCode = none ∧
    (serve HttpDeleteUser wd r).table = wd.table.remove i ∧
    (serve HttpDeleteUser wd r).calls = wd.calls ++ [.First i, .Delete u] := by
  have hi := (Table.lookup_some _ _ _ hu).2
  have hne : i ≠ 0 := by omega
  unfold serve HttpDeleteUser
  simp [bind, Handler.bind, ConnectDB, hconn, hid, hfirst, hdel, hu, hi, hne, pure, WriteHeader,
    Run.status, Run.body, Run.state, Run.exitCode, Run.table, Run.calls, DB.First, DB.Delete,
    World.record, ResponseWriter.fresh]

theorem update_run (wd : World) (r : Request) (i : Nat) (u : User)
    (hconn : wd.connectErr = none) (hfirst : DbOp.First ∉ wd.faults)
    (hsave : DbOp.Save ∉ wd.faults)
    (hid : ParseUint (r.ByName "id") 10 32 = (i, none))
    (hu : wd.table.lookup i = some u) (hpos : 0 < i)
    (hage : r.FormValue "age" = "" ∨ isUint32Decimal (r.FormValue "age") = true) :
    (serve HttpUpdateUser wd r).status = some 200 ∧
    (serve HttpUpdateUser wd r).body = none ∧
    (serve HttpUpdateUser wd r).exitCode = none ∧
    (serve HttpUpdateUser wd r).table =
      wd.table.update (mergedRecord u (r.FormValue "name") (r.FormValue "email")
        (r.FormValue "age")) ∧
    (serve HttpUpdateUser wd r).calls =
      wd.calls ++ [.First i, .Save (mergedRecord u (r.FormValue "name") (r.FormValue "email")
        (r.FormValue "age"))] := by
  have hi := (Table.lookup_some _ _ _ hu).2
  have hne : i ≠ 0 := by omega
  have hhas : wd.table.hasID i = true :=
    Table.hasID_eq_true _ _ ⟨u, (Table.lookup_some _ _ _ hu).1, hi⟩
  obtain ⟨uid, un, ue, ua⟩ := u
  simp only at hi
  subst hi
  unfold serve HttpUpdateUser
  by_cases ha : r.FormValue "age" = ""
  · by_cases hn : r.FormValue "name" = "" <;> by_cases he : r.FormValue "email" = "" <;>
      simp [bind, Handler.bind, ConnectDB, hconn, hid, hfirst, hsave, hu, hne, hhas, ha, hn,
        he, pure, WriteHeader, Run.status, Run.body, Run.state, Run.exitCode, Run.table,
        Run.calls, DB.First, DB.Save, World.record, ResponseWriter.fresh, mergedRecord]
  · have hdec : isUint32Decimal (r.FormValue "age") = true := by
      rcases hage with h | h
      · exact absurd h ha
      · exact h
    have hval := ParseUint_of_decimal _ hdec
    have hui := uint_decimal _ hdec
    simp only [String.toList] at hui
    by_cases hn : r.FormValue "name" = "" <;> by_cases he : r.FormValue "email" = "" <;>
      simp [bind, Handler.bind, ConnectDB, hconn, hid, hfirst, hsave, hu, hne, hhas, ha, hn,
        he, hval, hui, pure, WriteHeader, Run.status, Run.body, Run.state, Run.exitCode,
        Run.table, Run.calls, DB.First, DB.Save, World.record, ResponseWriter.fresh,
        mergedRecord]

/-! ## The table invariant

Every handler leaves a well-formed table well-formed, whatever the request
and whichever calls fail, and the empty table is well-formed: the tables a
running store can reach are the well-formed ones. -/

theorem emptyTable_WF : emptyTable.WF := by
  refine ⟨by decide, ?_, by decide⟩
  intro u hu
  cases hu

theorem delete_WF (wd : World) (r : Request) (hwf : wd.table.WF) :
    (serve HttpDeleteUser wd r).table.WF := by
  unfold serve HttpDeleteUser
  by_cases h1 : wd.connectErr = none
  swap
  · simpa [bind, Handler.bind, ConnectDB, h1, logFatal, Run.table, Run.state] using hwf
  by_cases h2 : (ParseUint (r.ByName "id") 10 32).2 = none
  swap
  · simpa [bind, Handler.bind, ConnectDB, h1, h2, pure, logPrintln, httpError, Run.table,
      Run.state] using hwf
  by_cases h3 : DbOp.First ∈ wd.faults
  · simpa [bind, Handler.bind, ConnectDB, h1, h2, h3, pure, logPrintln, httpError, Run.table,
      Run.state, DB.First, World.record] using hwf
  cases h4 : wd.table.lookup (ParseUint (r.ByName "id") 10 32).1 with
  | none =>
    simpa [bind, Handler.bind, ConnectDB, h1, h2, h3, h4, pure, logPrintln, httpError, Run.table,
      Run.state, DB.First, World.record] using hwf
  | some u =>
    by_cases h5 : DbOp.Delete ∈ wd.faults
    · simpa [bind, Handler.bind, ConnectDB, h1, h2, h3, h4, h5, pure, WriteHeader, Run.table,
        Run.state, DB.First, DB.Delete, World.record] using hwf
    by_cases h6 : u.ID = 0
    · simpa [bind, Handler.bind, ConnectDB, h1, h2, h3, h4, h5, h6, pure, WriteHeader, Run.table,
        Run.state, DB.First, DB.Delete, World.record] using hwf
    · simpa [bind, Handler.bind, ConnectDB, h1, h2, h3, h4, h5, h6, pure, WriteHeader, Run.table,
        Run.state, DB.First, DB.Delete, World.record] using Table.WF_remove _ u.ID hwf

theorem create_WF (wd : World) (r : Request) (hwf : wd.table.WF) :
    (serve HttpCreateUser wd r).table.WF := by
  unfold serve HttpCreateUser
  by_cases h1 : wd.connectErr = none
  swap
  · simpa [bind, Handler.bind, ConnectDB, h1, logFatal, Run.table, Run.state] using hwf
  by_cases h2 : r.parseFormErr = none
  swap
  · simpa [bind, Handler.bind, ConnectDB, h1, h2, pure, logPrintln, httpError, Run.table,
      Run.state] using hwf
  by_cases h3 : (ParseUint (r.FormValue "age") 10 32).2 = none
  swap
  · simpa [bind, Handler.bind, ConnectDB, h1, h2, h3, pure, logPrintln, httpError, Run.table,
      Run.state] using hwf
  by_cases h4 : DbOp.Create ∈ wd.faults
  · simpa [bind, Handler.bind, ConnectDB, h1, h2, h3, h4, pure, logPrintln, httpError, Run.table,
      Run.state, DB.Create, World.record] using hwf
  have h5 := Table.nextID_free _ hwf
  simpa [bind, Handler.bind, ConnectDB, h1, h2, h3, h4, h5, pure, WriteHeader, Run.table,
      Run.state, DB.Create, World.record, Table.insert, User.zero] using
    Table.WF_insert_next wd.table _ hwf rfl

theorem read_keeps_table (wd : World) (r : Request) :
    (serve HttpGetUsers wd r).table = wd.table ∧ (serve HttpGetUser wd r).table = wd.table := by
  constructor
  · unfold serve HttpGetUsers
    by_cases h1 : wd.connectErr = none
    swap
    · simp [bind, Handler.bind, ConnectDB, h1, logFatal, Run.table, Run.state]
    by_cases h2 : DbOp.Find ∈ wd.faults <;>
      simp [bind, Handler.bind, ConnectDB, h1, h2, pure, logPrintln, httpError, Run.table,
        Run.state, DB.Find, World.record, jsonMarshalUsers, HeaderSetContentType, WriteHeader,
        Write]
  · unfold serve HttpGetUser
    by_cases h1 : wd.connectErr = none
    swap
    · simp [bind, Handler.bind, ConnectDB, h1, logFatal, Run.table, Run.state]
    by_cases h2 : (ParseUint (r.ByName "id") 10 32).2 = none
    swap
    · simp [bind, Handler.bind, ConnectDB, h1, h2, pure, logPrintln, httpError, Run.table,
        Run.state]
    by_cases h3 : DbOp.First ∈ wd.faults
    · simp [bind, Handler.bind, ConnectDB, h1, h2, h3, pure, logPrintln, httpError, Run.table,
        Run.state, DB.First, World.record]
    cases h4 : wd.table.lookup (ParseUint (r.ByName "id") 10 32).1 <;>
      simp [bind, Handler.bind, ConnectDB, h1, h2, h3, h4, pure, logPrintln, httpError, Run.table,
        Run.state, DB.First, World.record, jsonMarshalUser, HeaderSetContentType, WriteHeader,
        Write]

theorem update_WF (wd : World) (r : Request) (hwf : wd.table.WF) :
    (serve HttpUpdateUser wd r).table.WF := by
  unfold serve HttpUpdateUser
  by_cases h1 : wd.connectErr = none
  swap
  · simpa [bind, Handler.bind, ConnectDB, h1, logFatal, Run.table, Run.state] using hwf
  by_cases h2 : (ParseUint (r.ByName "id") 10 32).2 = none
  swap
  · simpa [bind, Handler.bind, ConnectDB, h1, h2, pure, logPrintln, httpError, Run.table,
      Run.state] using hwf
  by_cases h3 : DbOp.First ∈ wd.faults
  · simpa [bind, Handler.bind, ConnectDB, h1, h2, h3, pure, logPrintln, httpError, Run.table,
      Run.state, DB.First, World.record] using hwf
  cases h4 : wd.table.lookup (ParseUint (r.ByName "id") 10 32).1 with
  | none =>
    simpa [bind, Handler.bind, ConnectDB, h1, h2, h3, h4, pure, logPrintln, httpError, Run.table,
      Run.state, DB.First, World.record] using hwf
  | some u =>
    have hmem := (Table.lookup_some _ _ _ h4).1
    have hne : u.ID ≠ 0 := by
      have := (hwf.2.1 u hmem).1
      omega
    have hhas : wd.table.hasID u.ID = true := Table.hasID_eq_true _ _ ⟨u, hmem, rfl⟩
    have hall : ∀ m : User, m.ID = u.ID → (wd.table.update m).WF :=
      fun m hm => Table.WF_update wd.table m u hwf hmem hm
    by_cases h5 : DbOp.Save ∈ wd.faults
    · by_cases hn : r.FormValue "name" = "" <;> by_cases he : r.FormValue "email" = "" <;>
        by_cases ha : r.FormValue "age" = "" <;>
        by_cases hp : (ParseUint (r.FormValue "age") 10 32).2 = none <;>
        simpa [bind, Handler.bind, ConnectDB, h1, h2, h3, h4, h5, hn, he, ha, hp, pure,
          logPrintln, httpError, WriteHeader, Run.table, Run.state, DB.First, DB.Save,
          World.record] using hwf
    · by_cases hn : r.FormValue "name" = "" <;> by_cases he : r.FormValue "email" = "" <;>
        by_cases ha : r.FormValue "age" = "" <;>
        by_cases hp : (ParseUint (r.FormValue "age") 10 32).2 = none <;>
        first
        | simpa [bind, Handler.bind, ConnectDB, h1, h2, h3, h4, h5, hn, he, ha, hp, pure,
            logPrintln, httpError, WriteHeader, Run.table, Run.state, DB.First, DB.Save,
            World.record] using hwf
        | (simp only [bind, Handler.bind, ConnectDB, h1, h2, h3, h4, h5, hn, he, ha, hp, hne,
            hhas, pure, logPrintln, httpError, WriteHeader, Run.table, Run.state, DB.First,
            DB.Save, World.record, ne_eq, not_true_eq_false, not_false_eq_true, if_true,
            if_false, and_self, reduceCtorEq]
           exact hall _ rfl)

theorem handlers_preserve_WF (wd : World) (r : Request) (hwf : wd.table.WF) :
    ∀ h ∈ [HttpCreateUser, HttpGetUsers, HttpGetUser, HttpUpdateUser, HttpDeleteUser],
      (serve h wd r).table.WF := by
  intro h hh
  simp only [List.mem_cons, List.mem_singleton, List.not_mem_nil, or_false] at hh
  rcases hh with rfl | rfl | rfl | rfl | rfl
  · exact create_WF wd r hwf
  · rw [(read_keeps_table wd r).1]; exact hwf
  · rw [(read_keeps_table wd r).2]; exact hwf
  · exact update_WF wd r hwf
  · exact delete_WF wd r hwf

/-! ## Malformed input -/

/-- C1: when the age form value of a create request is not a non-empty string
of ASCII digits with value at most 4294967295, HttpCreateUser responds 400,
issues no gateway call (so no insert) and leaves the table as it was. -/
theorem HttpCreateUser_bad_age (wd : World) (r : Request)
    (hconn : wd.connectErr = none)
    (hage : isUint32Decimal (r.FormValue "age") = false) :
    (serve HttpCreateUser wd r).status = some 400 ∧
    (serve HttpCreateUser wd r).exitCode = none ∧
    (serve HttpCreateUser wd r).calls = wd.calls ∧
    (serve HttpCreateUser wd r).table = wd.table := by
  have herr := ParseUint_err_of_not_decimal _ hage
  unfold serve HttpCreateUser
  simp only [bind, Handler.bind, ConnectDB, hconn]
  by_cases hf : r.parseFormErr = none <;>
    simp [hf, herr, pure, Handler.bind, logPrintln, httpError, Run.status, Run.state,
      Run.exitCode, Run.calls, Run.table]

theorem HttpCreateUser_bad_age_witness :
    (serve HttpCreateUser (mkWorld twoTable)
        (mkRequest "" [("name", "Ann"), ("email", "a@x.com"), ("age", "abc")])).status = some 400 ∧
    (serve HttpCreateUser (mkWorld twoTable)
        (mkRequest "" [("name", "Ann"), ("email", "a@x.com"), ("age", "abc")])).exitCode = none ∧
    (serve HttpCreateUser (mkWorld twoTable)
        (mkRequest "" [("name", "Ann"), ("email", "a@x.com"), ("age", "abc")])).calls = [] ∧
    (serve HttpCreateUser (mkWorld twoTable)
        (mkRequest "" [("name", "Ann"), ("email", "a@x.com"), ("age", "abc")])).table = twoTable :=
  HttpCreateUser_bad_age (mkWorld twoTable)
    (mkRequest "" [("name", "Ann"), ("email", "a@x.com"), ("age", "abc")]) (by decide) (by decide)

/-- C2: on a store holding a user with id i, an update request on i whose age
form value is non-empty and is not an unsigned 32-bit decimal gets 400,
whatever name and email it carries; the only gateway call is the lookup, and
the table, so the record for i and every other record, is what it was. -/
theorem HttpUpdateUser_bad_age (wd : World) (r : Request) (i : Nat)
    (hconn : wd.connectErr = none) (hfirst : DbOp.First ∉ wd.faults)
    (hid : ParseUint (r.ByName "id") 10 32 = (i, none))
    (hmem : ∃ u ∈ wd.table.rows, u.ID = i)
    (hne : r.FormValue "age" ≠ "")
    (hage : isUint32Decimal (r.FormValue "age") = false) :
    (serve HttpUpdateUser wd r).status = some 400 ∧
    (serve HttpUpdateUser wd r).exitCode = none ∧
    (serve HttpUpdateUser wd r).table = wd.table ∧
    (serve HttpUpdateUser wd r).calls = wd.calls ++ [.First i] := by
  have herr := ParseUint_err_of_not_decimal _ hage
  obtain ⟨v, hv⟩ := Table.lookup_isSome _ _ hmem
  unfold serve HttpUpdateUser
  simp only [bind, Handler.bind, ConnectDB, hconn, hid, DB.First, World.record, hfirst, hv, pure]
  by_cases hn : r.FormValue "name" = "" <;> by_cases he : r.FormValue "email" = "" <;>
    simp [hn, he, hne, herr, Handler.bind, DB.First, World.record, hfirst, hv, logPrintln,
      httpError, Run.status, Run.state, Run.exitCode, Run.calls, Run.table]

theorem HttpUpdateUser_bad_age_witness :
    (serve HttpUpdateUser (mkWorld twoTable)
        (mkRequest "2" [("name", "Rob"), ("email", "r@x.com"), ("age", "-1")])).status = some 400 ∧
    (serve HttpUpdateUser (mkWorld twoTable)
        (mkRequest "2" [("name", "Rob"), ("email", "r@x.com"), ("age", "-1")])).exitCode = none ∧
    (serve HttpUpdateUser (mkWorld twoTable)
        (mkRequest "2" [("name", "Rob"), ("email", "r@x.com"), ("age", "-1")])).table = twoTable ∧
    (serve HttpUpdateUser (mkWorld twoTable)
        (mkRequest "2" [("name", "Rob"), ("email", "r@x.com"), ("age", "-1")])).calls =
      [] ++ [.First 2] :=
  HttpUpdateUser_bad_age (mkWorld twoTable)
    (mkRequest "2" [("name", "Rob"), ("email", "r@x.com"), ("age", "-1")]) 2
    (by decide) (by decide) (by decide) ⟨bob, by decide, by decide⟩ (by decide) (by decide)

/-! ## Lookup misses -/

/-- C4: when the id parameter is an unsigned 32-bit decimal that is the id of
no stored user, HttpGetUser, HttpUpdateUser and HttpDeleteUser each respond
404 whatever form values come with the request; the only gateway call is the
lookup (no save, no delete) and the table is what it was. -/
theorem not_found_on_missing_id (wd : World) (r : Request) (i : Nat)
    (hconn : wd.connectErr = none)
    (hid : ParseUint (r.ByName "id") 10 32 = (i, none))
    (hmiss : ∀ u ∈ wd.table.rows, u.ID ≠ i) :
    ∀ h ∈ [HttpGetUser, HttpUpdateUser, HttpDeleteUser],
      (serve h wd r).status = some 404 ∧
      (serve h wd r).body = some (.text "User not found") ∧
      (serve h wd r).exitCode = none ∧
      (serve h wd r).table = wd.table ∧
      (serve h wd r).calls = wd.calls ++ [.First i] :=
  miss_gives_404 wd r i hconn hid hmiss

theorem not_found_on_missing_id_witness :
    (serve HttpGetUser (mkWorld twoTable)
      (mkRequest "999" [("name", "Zed"), ("age", "7")])).status = some 404 ∧
    (serve HttpUpdateUser (mkWorld twoTable)
      (mkRequest "999" [("name", "Zed"), ("age", "7")])).status = some 404 ∧
    (serve HttpDeleteUser (mkWorld twoTable)
      (mkRequest "999" [("name", "Zed"), ("age", "7")])).status = some 404 ∧
    (serve HttpUpdateUser (mkWorld twoTable)
      (mkRequest "999" [("name", "Zed"), ("age", "7")])).table = twoTable ∧
    (serve HttpDeleteUser (mkWorld twoTable)
      (mkRequest "999" [("name", "Zed"), ("age", "7")])).table = twoTable := by
  have h := not_found_on_missing_id (mkWorld twoTable)
    (mkRequest "999" [("name", "Zed"), ("age", "7")]) 999 (by decide) (by decide) (by decide)
  exact ⟨(h HttpGetUser (by simp)).1, (h HttpUpdateUser (by simp)).1,
    (h HttpDeleteUser (by simp)).1, (h HttpUpdateUser (by simp)).2.2.2.1,
    (h HttpDeleteUser (by simp)).2.2.2.1⟩

/-! ## Update -/

/-- C3: on a store holding the user u, an update request on the id of u whose
age form value is empty or an unsigned 32-bit decimal gets 200, and the one
record saved is the merge of u with the request: same id, the supplied name
and email where non-empty and those of u otherwise, the parsed age if one is
supplied and that of u otherwise. Afterwards a lookup of that id gives the
merged record and a lookup of any other id gives what it gave before; when
only age is supplied the merged record is u with the new age. -/
theorem HttpUpdateUser_merges (wd : World) (r : Request) (u : User)
    (hconn : wd.connectErr = none) (hfirst : DbOp.First ∉ wd.faults)
    (hsave : DbOp.Save ∉ wd.faults) (hwf : wd.table.WF) (hu : u ∈ wd.table.rows)
    (hid : ParseUint (r.ByName "id") 10 32 = (u.ID, none))
    (hage : r.FormValue "age" = "" ∨ isUint32Decimal (r.FormValue "age") = true) :
    (serve HttpUpdateUser wd r).status = some 200 ∧
    (serve HttpUpdateUser wd r).exitCode = none ∧
    (serve HttpUpdateUser wd r).calls =
      wd.calls ++ [.First u.ID, .Save (mergedRecord u (r.FormValue "name")
        (r.FormValue "email") (r.FormValue "age"))] ∧
    (mergedRecord u (r.FormValue "name") (r.FormValue "email") (r.FormValue "age")).ID = u.ID ∧
    (serve HttpUpdateUser wd r).table.lookup u.ID =
      some (mergedRecord u (r.FormValue "name") (r.FormValue "email") (r.FormValue "age")) ∧
    (∀ j, j ≠ u.ID → (serve HttpUpdateUser wd r).table.lookup j = wd.table.lookup j) ∧
    (serve HttpUpdateUser wd r).table.rows =
      wd.table.rows.map (fun v => if v.ID = u.ID then
        mergedRecord u (r.FormValue "name") (r.FormValue "email") (r.FormValue "age") else v) ∧
    (serve HttpUpdateUser wd r).table.nextID = wd.table.nextID ∧
    (r.FormValue "name" = "" → r.FormValue "email" = "" → r.FormValue "age" ≠ "" →
      mergedRecord u (r.FormValue "name") (r.FormValue "email") (r.FormValue "age") =
        { u with Age := decimalValue (r.FormValue "age").toList 0 }) := by
  have hlook := Table.lookup_of_mem _ u hwf hu
  have hpos := (hwf.2.1 u hu).1
  obtain ⟨h1, _, h3, h4, h5⟩ := update_run wd r u.ID u hconn hfirst hsave hid hlook hpos hage
  refine ⟨h1, h3, h5, rfl, ?_, ?_, ?_, ?_, ?_⟩
  · rw [h4]
    exact Table.lookup_update_same _ _ u hlook
  · intro j hj
    rw [h4]
    exact Table.lookup_update_other _ _ j hj
  · rw [h4]
    rfl
  · rw [h4]
    rfl
  · intro hn he ha
    simp [mergedRecord, hn, he, ha]

theorem HttpUpdateUser_merges_witness :
    (serve HttpUpdateUser (mkWorld twoTable) (mkRequest "2" [("age", "42")])).status = some 200 ∧
    (serve HttpUpdateUser (mkWorld twoTable) (mkRequest "2" [("age", "42")])).table.rows =
      [ann, { ID := 2, Name := "Bob", Email := "b@x.com", Age := 42 }] := by
  have h := HttpUpdateUser_merges (mkWorld twoTable) (mkRequest "2" [("age", "42")]) bob
    (by decide) (by decide) (by decide)
    ⟨by decide, by decide, by decide⟩ (by decide) (by decide) (Or.inr (by decide))
  refine ⟨h.1, ?_⟩
  rw [h.2.2.2.2.2.2.1]
  decide

/-! ## Delete -/

/-- C5: on a store holding the user u, the first HttpDeleteUser on the id of
u gets 204 and removes the record; after that, with no create in between, a
second HttpDeleteUser on that id gets 404, and so do HttpGetUser and
HttpUpdateUser. -/
theorem delete_twice (wd : World) (r : Request) (u : User)
    (hconn : wd.connectErr = none) (hfirst : DbOp.First ∉ wd.faults)
    (hdel : DbOp.Delete ∉ wd.faults) (hwf : wd.table.WF) (hu : u ∈ wd.table.rows)
    (hid : ParseUint (r.ByName "id") 10 32 = (u.ID, none)) :
    (serve HttpDeleteUser wd r).status = some 204 ∧
    (serve HttpDeleteUser wd r).exitCode = none ∧
    (∀ v ∈ (serve HttpDeleteUser wd r).table.rows, v.ID ≠ u.ID) ∧
    (∀ v ∈ wd.table.rows, v.ID ≠ u.ID → v ∈ (serve HttpDeleteUser wd r).table.rows) ∧
    ∀ (wd2 : World) (r2 : Request), wd2.connectErr = none →
      wd2.table = (serve HttpDeleteUser wd r).table →
      ParseUint (r2.ByName "id") 10 32 = (u.ID, none) →
      ∀ h ∈ [HttpGetUser, HttpUpdateUser, HttpDeleteUser],
        (serve h wd2 r2).status = some 404 ∧ (serve h wd2 r2).table = wd2.table := by
  have hlook := Table.lookup_of_mem _ u hwf hu
  have hpos := (hwf.2.1 u hu).1
  obtain ⟨h1, _, h3, h4, _⟩ := delete_run wd r u.ID u hconn hfirst hdel hid hlook hpos
  have hgone : ∀ v ∈ (serve HttpDeleteUser wd r).table.rows, v.ID ≠ u.ID := by
    intro v hv
    rw [h4] at hv
    simp only [Table.remove, List.mem_filter] at hv
    simpa using hv.2
  refine ⟨h1, h3, hgone, ?_, ?_⟩
  · intro v hv hne
    rw [h4]
    simp only [Table.remove, List.mem_filter]
    exact ⟨hv, by simpa using hne⟩
  · intro wd2 r2 hc2 ht2 hid2 h hh
    have hmiss : ∀ v ∈ wd2.table.rows, v.ID ≠ u.ID := by
      rw [ht2]
      exact hgone
    have := miss_gives_404 wd2 r2 u.ID hc2 hid2 hmiss h hh
    exact ⟨this.1, this.2.2.2.1⟩

theorem delete_twice_witness :
    (serve HttpDeleteUser (mkWorld twoTable) (mkRequest "1" [])).status = some 204 ∧
    (serve HttpDeleteUser (mkWorld (serve HttpDeleteUser (mkWorld twoTable)
      (mkRequest "1" [])).table) (mkRequest "1" [])).status = some 404 := by
  have h := delete_twice (mkWorld twoTable) (mkRequest "1" []) ann
    (by decide) (by decide) (by decide) ⟨by decide, by decide, by decide⟩ (by decide) (by decide)
  refine ⟨h.1, ?_⟩
  exact (h.2.2.2.2 (mkWorld (serve HttpDeleteUser (mkWorld twoTable) (mkRequest "1" [])).table)
    (mkRequest "1" []) rfl rfl (by decide) HttpDeleteUser (by simp)).1

/-! ## Create, then read back -/

/-- C6: round trip. When HttpCreateUser responds 201, the age it was given is
an unsigned 32-bit decimal, the store holds a new record with the submitted
name, email and parsed age under the id it assigned, and HttpGetUser on that
id responds 200 with exactly that record. -/
theorem create_then_get (wd : World) (r : Request) (wd2 : World) (r2 : Request)
    (h201 : (serve HttpCreateUser wd r).status = some 201)
    (hconn2 : wd2.connectErr = none) (hfirst2 : DbOp.First ∉ wd2.faults)
    (htab : wd2.table = (serve HttpCreateUser wd r).table)
    (hid : ParseUint (r2.ByName "id") 10 32 = (wd.table.nextID, none)) :
    isUint32Decimal (r.FormValue "age") = true ∧
    wd.table.lookup wd.table.nextID = none ∧
    (serve HttpCreateUser wd r).table.lookup wd.table.nextID =
      some (createdRecord wd.table.nextID (r.FormValue "name") (r.FormValue "email")
        (r.FormValue "age")) ∧
    (serve HttpGetUser wd2 r2).status = some 200 ∧
    (serve HttpGetUser wd2 r2).body =
      some (.user (createdRecord wd.table.nextID (r.FormValue "name") (r.FormValue "email")
        (r.FormValue "age"))) := by
  obtain ⟨c1, c2, c3, c4, c5⟩ := create_201_inv wd r h201
  obtain ⟨_, _, _, ht, _⟩ := create_run wd r c1 c2 c3 c4 c5
  have hfree : ∀ v ∈ wd.table.rows, v.ID ≠ wd.table.nextID := by
    intro v hv he
    have := Table.hasID_eq_true wd.table wd.table.nextID ⟨v, hv, he⟩
    rw [c5] at this
    cases this
  have hnew : (serve HttpCreateUser wd r).table.lookup wd.table.nextID =
      some (createdRecord wd.table.nextID (r.FormValue "name") (r.FormValue "email")
        (r.FormValue "age")) := by
    rw [ht]
    exact Table.lookup_append_new _ _ _ _ hfree rfl
  have hget := get_run wd2 r2 wd.table.nextID _ hconn2 hfirst2 hid (by rw [htab]; exact hnew)
  exact ⟨(ParseUint_err_none_iff _).1 c3, Table.lookup_eq_none _ _ hfree, hnew, hget.1, hget.2.1⟩

theorem create_then_get_witness :
    (serve HttpGetUser (mkWorld { rows := [ann], nextID := 2 }) (mkRequest "1" [])).status =
      some 200 ∧
    (serve HttpGetUser (mkWorld { rows := [ann], nextID := 2 }) (mkRequest "1" [])).body =
      some (.user { ID := 1, Name := "Ann", Email := "a@x.com", Age := 30 }) := by
  have h := create_then_get (mkWorld emptyTable)
    (mkRequest "" [("name", "Ann"), ("email", "a@x.com"), ("age", "30")])
    (mkWorld { rows := [ann], nextID := 2 }) (mkRequest "1" [])
    (by decide) (by decide) (by decide) (by decide) (by decide)
  exact ⟨h.2.2.2.1, h.2.2.2.2⟩

/-! ## Create, then list -/

/-- C7: for a valid creation input (the form parses, the age is an unsigned
32-bit decimal, the insert does not fail) HttpCreateUser responds 201, and
the sequence HttpGetUsers returns afterwards is the sequence it returned
before followed by one more record, which carries the submitted name, email
and parsed age. -/
theorem list_after_create (wd : World) (r : Request) (wdB wdA : World) (rB rA : Request)
    (hconn : wd.connectErr = none) (hform : r.parseFormErr = none)
    (hage : isUint32Decimal (r.FormValue "age") = true)
    (hcreate : DbOp.Create ∉ wd.faults) (hwf : wd.table.WF)
    (hB : wdB.connectErr = none ∧ DbOp.Find ∉ wdB.faults ∧ wdB.table = wd.table)
    (hA : wdA.connectErr = none ∧ DbOp.Find ∉ wdA.faults ∧
      wdA.table = (serve HttpCreateUser wd r).table) :
    (serve HttpCreateUser wd r).status = some 201 ∧
    (serve HttpGetUsers wdB rB).status = some 200 ∧
    (serve HttpGetUsers wdA rA).status = some 200 ∧
    ∃ before : List User,
      (serve HttpGetUsers wdB rB).body = some (.users before) ∧
      (serve HttpGetUsers wdA rA).body =
        some (.users (before ++ [createdRecord wd.table.nextID (r.FormValue "name")
          (r.FormValue "email") (r.FormValue "age")])) ∧
      (before ++ [createdRecord wd.table.nextID (r.FormValue "name")
          (r.FormValue "email") (r.FormValue "age")]).length = before.length + 1 ∧
      ∀ v ∈ before, v.ID ≠ wd.table.nextID := by
  obtain ⟨c1, _, _, ct, _⟩ := create_run wd r hconn hform ((ParseUint_err_none_iff _).2 hage)
    hcreate (Table.nextID_free _ hwf)
  obtain ⟨b1, b2, _, _⟩ := list_run wdB rB hB.1 hB.2.1
  obtain ⟨a1, a2, _, _⟩ := list_run wdA rA hA.1 hA.2.1
  refine ⟨c1, b1, a1, wd.table.rows, ?_, ?_, by simp, ?_⟩
  · rw [b2, hB.2.2]
  · rw [a2, hA.2.2, ct]
  · intro v hv
    have := (hwf.2.1 v hv).2
    omega

theorem list_after_create_witness :
    (serve HttpCreateUser (mkWorld twoTable)
      (mkRequest "" [("name", "Cy"), ("email", "c@x.com"), ("age", "7")])).status = some 201 ∧
    (serve HttpGetUsers (mkWorld twoTable) (mkRequest "" [])).body = some (.users [ann, bob]) ∧
    (serve HttpGetUsers (mkWorld (serve HttpCreateUser (mkWorld twoTable)
      (mkRequest "" [("name", "Cy"), ("email", "c@x.com"), ("age", "7")])).table)
      (mkRequest "" [])).body =
      some (.users [ann, bob, { ID := 3, Name := "Cy", Email := "c@x.com", Age := 7 }]) := by
  have h := list_after_create (mkWorld twoTable)
    (mkRequest "" [("name", "Cy"), ("email", "c@x.com"), ("age", "7")])
    (mkWorld twoTable)
    (mkWorld (serve HttpCreateUser (mkWorld twoTable)
      (mkRequest "" [("name", "Cy"), ("email", "c@x.com"), ("age", "7")])).table)
    (mkRequest "" []) (mkRequest "" [])
    (by decide) (by decide) (by decide) (by decide) ⟨by decide, by decide, by decide⟩
    ⟨by decide, by decide, rfl⟩ ⟨by decide, by decide, rfl⟩
  exact ⟨h.1, by decide, by decide⟩

/-! ## Failures of the gateway and of the connection -/

/-- C8, counterexample: the lookup of a stored id fails for a reason other
than a miss, and HttpGetUser, HttpUpdateUser and HttpDeleteUser respond 404,
not 500. -/
theorem lookup_failure_gives_404 :
    ann ∈ twoTable.rows ∧
    (serve HttpGetUser { mkWorld twoTable with faults := [.First] }
      (mkRequest "1" [])).status = some 404 ∧
    (serve HttpUpdateUser { mkWorld twoTable with faults := [.First] }
      (mkRequest "1" [("age", "31")])).status = some 404 ∧
    (serve HttpDeleteUser { mkWorld twoTable with faults := [.First] }
      (mkRequest "1" [])).status = some 404 := by
  decide

/-- C8, amended: when the insert in HttpCreateUser or the find-all in
HttpGetUsers reports a failure the response is 500 and the table is what it
was; when the find-by-id in HttpGetUser, HttpUpdateUser or HttpDeleteUser
reports any error, a failure of the connection or query as well as a lookup
miss, the response is 404, the lookup is the only gateway call (no save, no
delete) and the table is what it was. -/
theorem gateway_failure_responses (wd : World) (r : Request) (i : Nat)
    (hconn : wd.connectErr = none) :
    (r.parseFormErr = none → isUint32Decimal (r.FormValue "age") = true →
      (DbOp.Create ∈ wd.faults ∨ wd.table.hasID wd.table.nextID = true) →
      (serve HttpCreateUser wd r).status = some 500 ∧
      (serve HttpCreateUser wd r).table = wd.table) ∧
    (DbOp.Find ∈ wd.faults →
      (serve HttpGetUsers wd r).status = some 500 ∧
      (serve HttpGetUsers wd r).table = wd.table) ∧
    (ParseUint (r.ByName "id") 10 32 = (i, none) →
      (DbOp.First ∈ wd.faults ∨ wd.table.lookup i = none) →
      ∀ h ∈ [HttpGetUser, HttpUpdateUser, HttpDeleteUser],
        (serve h wd r).status = some 404 ∧
        (serve h wd r).table = wd.table ∧
        (serve h wd r).calls = wd.calls ++ [.First i]) := by
  refine ⟨?_, ?_, ?_⟩
  · intro hform hage hfail
    have hval := ParseUint_of_decimal _ hage
    unfold serve HttpCreateUser
    by_cases hf : DbOp.Create ∈ wd.faults
    · simp [bind, Handler.bind, ConnectDB, hconn, hform, hval, hf, pure, logPrintln, httpError,
        Run.status, Run.state, Run.table, DB.Create, World.record]
    · have hdup : wd.table.hasID wd.table.nextID = true := hfail.resolve_left hf
      simp [bind, Handler.bind, ConnectDB, hconn, hform, hval, hf, hdup, pure, logPrintln,
        httpError, Run.status, Run.state, Run.table, DB.Create, World.record, Table.insert,
        User.zero]
  · intro hf
    unfold serve HttpGetUsers
    simp [bind, Handler.bind, ConnectDB, hconn, hf, pure, logPrintln, httpError, Run.status,
      Run.state, Run.table, DB.Find, World.record]
  · intro hid herr h hh
    have := lookup_error_gives_404 wd r i hconn hid herr h hh
    exact ⟨this.1, this.2.2.2.1, this.2.2.2.2⟩

theorem gateway_failure_responses_witness :
    (serve HttpCreateUser { mkWorld twoTable with faults := [.Create, .Find, .First] }
      (mkRequest "1" [("name", "Cy"), ("age", "7")])).status = some 500 ∧
    (serve HttpGetUsers { mkWorld twoTable with faults := [.Create, .Find, .First] }
      (mkRequest "1" [("name", "Cy"), ("age", "7")])).status = some 500 ∧
    (serve HttpDeleteUser { mkWorld twoTable with faults := [.Create, .Find, .First] }
      (mkRequest "1" [("name", "Cy"), ("age", "7")])).status = some 404 := by
  have h := gateway_failure_responses { mkWorld twoTable with faults := [.Create, .Find, .First] }
    (mkRequest "1" [("name", "Cy"), ("age", "7")]) 1 rfl
  exact ⟨(h.1 (by decide) (by decide) (Or.inl (by decide))).1, (h.2.1 (by decide)).1,
    (h.2.2 (by decide) (by decide) HttpDeleteUser (by simp)).1⟩

/-- The write that update and delete issue is not checked: with the save
failing HttpUpdateUser still responds 200 and with the delete failing
HttpDeleteUser still responds 204, the table being what it was. -/
theorem write_failure_unreported :
    (serve HttpUpdateUser { mkWorld twoTable with faults := [.Save] }
      (mkRequest "1" [("age", "31")])).status = some 200 ∧
    (serve HttpUpdateUser { mkWorld twoTable with faults := [.Save] }
      (mkRequest "1" [("age", "31")])).table = twoTable ∧
    (serve HttpDeleteUser { mkWorld twoTable with faults := [.Delete] }
      (mkRequest "1" [])).status = some 204 ∧
    (serve HttpDeleteUser { mkWorld twoTable with faults := [.Delete] }
      (mkRequest "1" [])).table = twoTable := by
  decide

/-- C9: when acquiring the connection fails, each of the five handlers ends
in the call to log.Fatal: the process exits with status 1, no response has
been written, and no gateway call has been made. -/
theorem connect_failure_exits (wd : World) (r : Request) (e : String)
    (hfail : wd.connectErr = some e) :
    ∀ h ∈ [HttpCreateUser, HttpGetUsers, HttpGetUser, HttpUpdateUser, HttpDeleteUser],
      (serve h wd r).exitCode = some 1 ∧
      (serve h wd r).status = none ∧
      (serve h wd r).body = none ∧
      (serve h wd r).calls = wd.calls := by
  intro h hh
  simp only [List.mem_cons, List.mem_singleton, List.not_mem_nil, or_false] at hh
  rcases hh with rfl | rfl | rfl | rfl | rfl
  · simp [serve, HttpCreateUser, bind, Handler.bind, ConnectDB, hfail, logFatal, Run.exitCode,
      Run.status, Run.body, Run.calls, Run.state, ResponseWriter.fresh]
  · simp [serve, HttpGetUsers, bind, Handler.bind, ConnectDB, hfail, logFatal, Run.exitCode,
      Run.status, Run.body, Run.calls, Run.state, ResponseWriter.fresh]
  · simp [serve, HttpGetUser, bind, Handler.bind, ConnectDB, hfail, logFatal, Run.exitCode,
      Run.status, Run.body, Run.calls, Run.state, ResponseWriter.fresh]
  · simp [serve, HttpUpdateUser, bind, Handler.bind, ConnectDB, hfail, logFatal, Run.exitCode,
      Run.status, Run.body, Run.calls, Run.state, ResponseWriter.fresh]
  · simp [serve, HttpDeleteUser, bind, Handler.bind, ConnectDB, hfail, logFatal, Run.exitCode,
      Run.status, Run.body, Run.calls, Run.state, ResponseWriter.fresh]

theorem connect_failure_exits_witness :
    (serve HttpCreateUser { mkWorld twoTable with connectErr := some "connection refused" }
      (mkRequest "1" [("age", "31")])).exitCode = some 1 ∧
    (serve HttpGetUsers { mkWorld twoTable with connectErr := some "connection refused" }
      (mkRequest "1" [("age", "31")])).exitCode = some 1 ∧
    (serve HttpGetUser { mkWorld twoTable with connectErr := some "connection refused" }
      (mkRequest "1" [("age", "31")])).exitCode = some 1 ∧
    (serve HttpUpdateUser { mkWorld twoTable with connectErr := some "connection refused" }
      (mkRequest "1" [("age", "31")])).exitCode = some 1 ∧
    (serve HttpDeleteUser { mkWorld twoTable with connectErr := some "connection refused" }
      (mkRequest "1" [("age", "31")])).exitCode = some 1 ∧
    (serve HttpGetUser { mkWorld twoTable with connectErr := some "connection refused" }
      (mkRequest "1" [("age", "31")])).status = none := by
  have h := connect_failure_exits
    { mkWorld twoTable with connectErr := some "connection refused" }
    (mkRequest "1" [("age", "31")]) "connection refused" rfl
  exact ⟨(h HttpCreateUser (by simp)).1, (h HttpGetUsers (by simp)).1,
    (h HttpGetUser (by simp)).1, (h HttpUpdateUser (by simp)).1,
    (h HttpDeleteUser (by simp)).1, (h HttpGetUser (by simp)).2.1⟩

/-! ## Name and email at creation -/

/-- C10, counterexample: a create request whose name and email are absent and
whose age is 30 is not rejected: the response is 201 and a record with empty
name and email is stored. -/
theorem create_empty_name_email_accepted :
    (mkRequest "" [("age", "30")]).FormValue "name" = "" ∧
    (mkRequest "" [("age", "30")]).FormValue "email" = "" ∧
    (serve HttpCreateUser (mkWorld emptyTable) (mkRequest "" [("age", "30")])).status =
      some 201 ∧
    (serve HttpCreateUser (mkWorld emptyTable) (mkRequest "" [("age", "30")])).table.rows =
      [{ ID := 1, Name := "", Email := "", Age := 30 }] := by
  decide

/-- C10, amended: HttpCreateUser applies no check to name and email. For
every create request whose form parses and whose age is an unsigned 32-bit
decimal, when the insert does not fail the response is 201 and exactly one
record is added, carrying the name and email form values as submitted, be
they empty or not. -/
theorem HttpCreateUser_stores_name_email_as_given (wd : World) (r : Request)
    (hconn : wd.connectErr = none) (hform : r.parseFormErr = none)
    (hage : isUint32Decimal (r.FormValue "age") = true)
    (hcreate : DbOp.Create ∉ wd.faults) (hwf : wd.table.WF) :
    (serve HttpCreateUser wd r).status = some 201 ∧
    (serve HttpCreateUser wd r).exitCode = none ∧
    (serve HttpCreateUser wd r).calls =
      wd.calls ++ [DbCall.Create
        { ID := 0, Name := r.FormValue "name", Email := r.FormValue "email",
          Age := decimalValue (r.FormValue "age").toList 0 }] ∧
    (serve HttpCreateUser wd r).table.rows =
      wd.table.rows ++ [
        { ID := wd.table.nextID, Name := r.FormValue "name", Email := r.FormValue "email",
          Age := decimalValue (r.FormValue "age").toList 0 }] := by
  obtain ⟨c1, _, c3, ct, cc⟩ := create_run wd r hconn hform ((ParseUint_err_none_iff _).2 hage)
    hcreate (Table.nextID_free _ hwf)
  refine ⟨c1, c3, cc, ?_⟩
  rw [ct]
  rfl

theorem HttpCreateUser_stores_name_email_as_given_witness :
    (serve HttpCreateUser (mkWorld twoTable) (mkRequest "" [("email", ""), ("age", "30")])).status =
      some 201 ∧
    (serve HttpCreateUser (mkWorld twoTable)
      (mkRequest "" [("email", ""), ("age", "30")])).table.rows =
      [ann, bob, { ID := 3, Name := "", Email := "", Age := 30 }] := by
  have h := HttpCreateUser_stores_name_email_as_given (mkWorld twoTable)
    (mkRequest "" [("email", ""), ("age", "30")])
    (by decide) (by decide) (by decide) (by decide) ⟨by decide, by decide, by decide⟩
  refine ⟨h.1, ?_⟩
  rw [h.2.2.2]
  decide

end GoCrud
